import Mathlib

/-!
Verification of the Centralized License Service core
(`licenses/models.py`, `licenses/views/brand_views.py`,
`licenses/views/product_views.py`).

The relational store is embedded shallowly: each Django model becomes a
record, the database becomes lists of records plus a fresh-id counter, and
each view's post-validation body becomes a function from a store and the
validated request data to an updated store and a response value.

Modelling conventions, each checked against the source:
* Django's `transaction.atomic()` commits whenever the block is left
  without an exception.  The provision and lifecycle views `return`
  error responses from inside their atomic blocks, so those returns
  commit every mutation already performed in the call; only a raised
  exception (e.g. an `IntegrityError`) rolls the block back.  The
  embedding reproduces exactly that: error returns keep the store as it
  is at that point, and the one reachable `IntegrityError` (the
  `unique_together ["license", "instance_id", "is_active"]` constraint
  hit by `DeactivateSeatView`) restores the store passed in.
* Python truthiness: `if license_obj.max_seats:` is false for both
  `None` and `0`, so `max_seats = 0` disables the seat check; datetimes
  are always truthy, so `if self.expiration_date:` is just a `None`
  test.
* Timestamps are integers; `timezone.now()` becomes an explicit `now`
  argument.  ISO-8601 parsing of expiration dates is abstracted into
  `ExpInput`: a request either carries no date, a well-formed date
  (already converted to its UTC instant) or a malformed string, and
  `parseExpiration` succeeds exactly on the first two, mirroring the
  `datetime.fromisoformat` try/except in `ProvisionLicenseView.post`.
* `_generate_unique_key` retries generation until the key string is
  absent from the store; the embedding returns a key derived from the
  fresh-id counter, which is unique by construction, so the retry loop
  always succeeds on the first attempt.  No claim concerns the key
  format itself.
* Request serializers run before the embedded code; the embedded
  functions receive validated data (e.g. `action` is already one of the
  four lifecycle actions).  `ProvisionLicenseRequestSerializer` only
  checks that each product dict has a `slug` key, so `max_seats` reaches
  `License.objects.create` unvalidated, exactly as in the source.
-/

/-- `LicenseStatus` from `licenses/models.py`. -/
inductive LicenseStatus where
  | valid
  | suspended
  | cancelled
deriving DecidableEq

/-- A `Product` row: brand foreign key, slug, active flag. -/
structure ProductRec where
  id : Nat
  brandId : Nat
  slug : String
  is_active : Bool
deriving DecidableEq

/-- A `LicenseKey` row: key string, brand foreign key, customer email. -/
structure LicenseKeyRec where
  id : Nat
  key : String
  brandId : Nat
  customer_email : String
deriving DecidableEq

/-- A `License` row: license-key and product foreign keys, status,
optional expiration instant and optional seat limit. -/
structure LicenseRec where
  id : Nat
  license_key : Nat
  productId : Nat
  status : LicenseStatus
  expiration_date : Option Int
  max_seats : Option Int
deriving DecidableEq

/-- An `Activation` row: license foreign key, caller-supplied instance
identifier, timestamps and the active flag. -/
structure ActivationRec where
  id : Nat
  licenseId : Nat
  instance_id : String
  activated_at : Int
  deactivated_at : Option Int
  is_active : Bool
deriving DecidableEq

/-- The relational store: one list per table plus a counter supplying
fresh primary keys (Django uses `uuid4`; freshness is all that the code
relies on). -/
structure Store where
  products : List ProductRec
  license_keys : List LicenseKeyRec
  licenses : List LicenseRec
  activations : List ActivationRec
  nextId : Nat
deriving DecidableEq

/-- `License.is_valid` from `licenses/models.py`: false when the status
is not `valid`; false when an expiration date is set and lies strictly
before `now`; true otherwise.  (A Python datetime is always truthy, so
`if self.expiration_date` is a `None` test.) -/
def is_valid (lic : LicenseRec) (now : Int) : Bool :=
  if lic.status ≠ LicenseStatus.valid then false
  else
    match lic.expiration_date with
    | some d => if d < now then false else true
    | none => true

/-- `Activation.objects.filter(license=lic, is_active=True).count()`. -/
def active_count (s : Store) (lid : Nat) : Nat :=
  s.activations.countP (fun a => a.licenseId == lid && a.is_active)

/-- `License.objects.filter(license_key=lk, product__slug=slug,
product__is_active=True).first()` — the license resolution shared by
`ActivateLicenseView.post` and `DeactivateSeatView.post`. -/
def findLicense (s : Store) (lkId : Nat) (slug : String) : Option LicenseRec :=
  s.licenses.find? (fun lic =>
    lic.license_key == lkId &&
      (s.products.find? (fun p => p.id == lic.productId)).any
        (fun p => p.slug == slug && p.is_active))

/-- The guard `if license_obj.max_seats and active_count >=
license_obj.max_seats:` — by Python truthiness, `None` and `0` both skip
the check. -/
def seat_limit_hit (max_seats : Option Int) (cnt : Nat) : Bool :=
  match max_seats with
  | none => false
  | some m => if m = 0 then false else decide (m ≤ (cnt : Int))

/-- `remaining = None; if license_obj.max_seats: remaining = max_seats -
active_count - 1` (success branch of `ActivateLicenseView.post`). -/
def remainingAfterCreate (max_seats : Option Int) (cnt : Nat) : Option Int :=
  match max_seats with
  | none => none
  | some m => if m = 0 then none else some (m - (cnt : Int) - 1)

/-- `remaining = None; if lic.max_seats: remaining = lic.max_seats -
active` (`DeactivateSeatView.post`, after the update). -/
def remainingTruthy (max_seats : Option Int) (active : Nat) : Option Int :=
  match max_seats with
  | none => none
  | some m => if m = 0 then none else some (m - (active : Int))

/-- Responses of `ActivateLicenseView.post`, one constructor per
`return` site. -/
inductive ActivateResult where
  | notFound
  | invalidLicense (st : LicenseStatus)
  | alreadyActive (activationId : Nat)
  | seatLimitReached (max_seats : Option Int)
  | created (activationId : Nat) (remaining : Option Int)
deriving DecidableEq

/-- HTTP status of each `ActivateLicenseView.post` response, as in the
source (404, 400, 200, 403, 201). -/
def activateHttpStatus : ActivateResult → Nat
  | .notFound => 404
  | .invalidLicense _ => 400
  | .alreadyActive _ => 200
  | .seatLimitReached _ => 403
  | .created _ _ => 201

/-- `ActivateLicenseView.post` after serializer validation: resolve the
license, reject invalid licenses, return an existing active activation
for the instance unchanged, enforce the (truthy) seat limit, otherwise
create a new active activation. -/
def activate (s : Store) (lkId : Nat) (instId slug : String) (now : Int) :
    Store × ActivateResult :=
  match findLicense s lkId slug with
  | none => (s, ActivateResult.notFound)
  | some lic =>
    if ¬ is_valid lic now then (s, ActivateResult.invalidLicense lic.status)
    else
      match s.activations.find? (fun a =>
          a.licenseId == lic.id && a.instance_id == instId && a.is_active) with
      | some existing => (s, ActivateResult.alreadyActive existing.id)
      | none =>
        let cnt := active_count s lic.id
        if seat_limit_hit lic.max_seats cnt then
          (s, ActivateResult.seatLimitReached lic.max_seats)
        else
          let act : ActivationRec := ⟨s.nextId, lic.id, instId, now, none, true⟩
          ({ s with activations := s.activations ++ [act], nextId := s.nextId + 1 },
            ActivateResult.created s.nextId (remainingAfterCreate lic.max_seats cnt))

/-- Responses of `DeactivateSeatView.post`.  `internalError` is the 500
produced when the `UPDATE` violates the `unique_together ["license",
"instance_id", "is_active"]` constraint: the `IntegrityError` leaves the
atomic block, rolling it back, and is caught by the generic handler. -/
inductive DeactivateResult where
  | licenseNotFound
  | activationNotFound
  | ok (remaining : Option Int)
  | internalError
deriving DecidableEq

/-- `DeactivateSeatView.post` after serializer validation: resolve the
license, find the active activation for the instance (404 if none), flag
it inactive stamping `deactivated_at`, and return the recomputed
remaining-seat count.  Flipping `is_active` to false collides with any
other row holding the same `(license, instance_id, False)` triple, which
the unique constraint turns into a rolled-back internal error. -/
def deactivate (s : Store) (lkId : Nat) (instId slug : String) (now : Int) :
    Store × DeactivateResult :=
  match findLicense s lkId slug with
  | none => (s, DeactivateResult.licenseNotFound)
  | some lic =>
    match s.activations.find? (fun a =>
        a.licenseId == lic.id && a.instance_id == instId && a.is_active) with
    | none => (s, DeactivateResult.activationNotFound)
    | some act =>
      if s.activations.any (fun a =>
          a.id != act.id && a.licenseId == lic.id &&
            a.instance_id == instId && !a.is_active) then
        (s, DeactivateResult.internalError)
      else
        let s' := { s with activations := s.activations.map (fun a =>
          if a.id = act.id then
            ⟨a.id, a.licenseId, a.instance_id, a.activated_at, some now, false⟩
          else a) }
        (s', DeactivateResult.ok (remainingTruthy lic.max_seats (active_count s' lic.id)))

/-- Expiration-date field of one entry of the `products` array of a
provision request, abstracting the ISO-8601 string: either a date that
`datetime.fromisoformat` accepts (already as its UTC instant) or a
malformed string. -/
inductive ExpInput where
  | date (t : Int)
  | malformed
deriving DecidableEq

/-- One entry of the `products` array of a provision request. -/
structure ProductRequest where
  slug : String
  expiration_date : Option ExpInput
  max_seats : Option Int
deriving DecidableEq

/-- Outcome of the date-parsing block of `ProvisionLicenseView.post`:
absent dates stay `None`, well-formed dates parse, malformed dates fail
the call. -/
inductive ParsedExp where
  | okDate (t : Option Int)
  | bad
deriving DecidableEq

def parseExpiration : Option ExpInput → ParsedExp
  | none => ParsedExp.okDate none
  | some (ExpInput.date t) => ParsedExp.okDate (some t)
  | some ExpInput.malformed => ParsedExp.bad

/-- Responses of `ProvisionLicenseView.post`, one constructor per
`return` site (success carries the key string, the `created` flag of
`get_or_create` and the ids of the licenses listed in the response). -/
inductive ProvisionResult where
  | ok (license_key : String) (created : Bool) (licenseIds : List Nat)
  | slugRequired
  | productNotFound (slug : String)
  | badDate (slug : String)
deriving DecidableEq

/-- Stands for `_generate_unique_key`: the retry loop returns a key
string not present in the store; deriving it from the fresh-id counter
makes it unique by construction. -/
def fresh_key (n : Nat) : String := "KEY-" ++ toString n

/-- Result of the `for product_data in products_data` loop body. -/
inductive LoopOut where
  | done (ids : List Nat)
  | fail (err : ProvisionResult)
deriving DecidableEq

/-- The product loop of `ProvisionLicenseView.post`.  Each error path is
a `return` from inside `transaction.atomic()`, which commits, so the
failing branches hand back the store as already mutated by earlier
iterations. -/
def provisionLoop (brandId keyId : Nat) :
    Store → List ProductRequest → List Nat → Store × LoopOut
  | s, [], acc => (s, LoopOut.done acc)
  | s, req :: rest, acc =>
    if req.slug = "" then (s, LoopOut.fail ProvisionResult.slugRequired)
    else
      match s.products.find? (fun p =>
          p.brandId == brandId && p.slug == req.slug && p.is_active) with
      | none => (s, LoopOut.fail (ProvisionResult.productNotFound req.slug))
      | some product =>
        match s.licenses.find? (fun l =>
            l.license_key == keyId && l.productId == product.id) with
        | some existing => provisionLoop brandId keyId s rest (acc ++ [existing.id])
        | none =>
          match parseExpiration req.expiration_date with
          | ParsedExp.bad => (s, LoopOut.fail (ProvisionResult.badDate req.slug))
          | ParsedExp.okDate d =>
            let lic : LicenseRec :=
              ⟨s.nextId, keyId, product.id, LicenseStatus.valid, d, req.max_seats⟩
            provisionLoop brandId keyId
              { s with licenses := s.licenses ++ [lic], nextId := s.nextId + 1 }
              rest (acc ++ [lic.id])

/-- `ProvisionLicenseView.post` after serializer validation:
`get_or_create` the license key for `(brand, customer_email)`, then run
the product loop. -/
def provision (s : Store) (brandId : Nat) (email : String)
    (reqs : List ProductRequest) : Store × ProvisionResult :=
  let step :=
    match s.license_keys.find? (fun k =>
        k.brandId == brandId && k.customer_email == email) with
    | some k => (s, k, false)
    | none =>
      let k : LicenseKeyRec := ⟨s.nextId, fresh_key s.nextId, brandId, email⟩
      ({ s with license_keys := s.license_keys ++ [k], nextId := s.nextId + 1 },
        k, true)
  match provisionLoop brandId step.2.1.id step.1 reqs [] with
  | (s2, LoopOut.done ids) => (s2, ProvisionResult.ok step.2.1.key step.2.2 ids)
  | (s2, LoopOut.fail err) => (s2, err)

/-- The four validated values of the lifecycle `action` field. -/
inductive LifecycleAction where
  | renew
  | suspend
  | resume
  | cancel
deriving DecidableEq

/-- Responses of `UpdateLicenseLifecycleView.patch`; `ok` carries the
status and expiration date of the license as serialized back. -/
inductive LifecycleResult where
  | notFound
  | forbidden
  | cannotSuspendCancelled
  | licenseNotSuspended
  | ok (st : LicenseStatus) (expiration : Option Int)
deriving DecidableEq

/-- `lic.save()`: write the fetched object back by primary key (primary
keys are unique in the database). -/
def saveLicense (s : Store) (lic : LicenseRec) : Store :=
  { s with licenses := s.licenses.map (fun l => if l.id = lic.id then lic else l) }

/-- `UpdateLicenseLifecycleView.patch` after serializer validation:
resolve the license (404), check tenant ownership (403), then apply the
action.  `renew` always writes the supplied expiration date and only
lifts `suspended` back to `valid`; `suspend` rejects cancelled licenses;
`resume` requires `suspended`; `cancel` is unguarded.  (The license's
key always exists by foreign-key integrity; a dangling key is mapped to
the 403 branch, which never fires on stores built by the operations.) -/
def update_lifecycle (s : Store) (brandId licenseId : Nat)
    (action : LifecycleAction) (expiration_date : Option Int) :
    Store × LifecycleResult :=
  match s.licenses.find? (fun l => l.id == licenseId) with
  | none => (s, LifecycleResult.notFound)
  | some lic =>
    match s.license_keys.find? (fun k => k.id == lic.license_key) with
    | none => (s, LifecycleResult.forbidden)
    | some key =>
      if key.brandId ≠ brandId then (s, LifecycleResult.forbidden)
      else
        match action with
        | LifecycleAction.renew =>
          let st := if lic.status = LicenseStatus.suspended then
            LicenseStatus.valid else lic.status
          let lic' : LicenseRec :=
            ⟨lic.id, lic.license_key, lic.productId, st, expiration_date, lic.max_seats⟩
          (saveLicense s lic', LifecycleResult.ok st expiration_date)
        | LifecycleAction.suspend =>
          if lic.status = LicenseStatus.cancelled then
            (s, LifecycleResult.cannotSuspendCancelled)
          else
            let lic' : LicenseRec :=
              ⟨lic.id, lic.license_key, lic.productId, LicenseStatus.suspended,
                lic.expiration_date, lic.max_seats⟩
            (saveLicense s lic',
              LifecycleResult.ok LicenseStatus.suspended lic.expiration_date)
        | LifecycleAction.resume =>
          if lic.status ≠ LicenseStatus.suspended then
            (s, LifecycleResult.licenseNotSuspended)
          else
            let lic' : LicenseRec :=
              ⟨lic.id, lic.license_key, lic.productId, LicenseStatus.valid,
                lic.expiration_date, lic.max_seats⟩
            (saveLicense s lic',
              LifecycleResult.ok LicenseStatus.valid lic.expiration_date)
        | LifecycleAction.cancel =>
          let lic' : LicenseRec :=
            ⟨lic.id, lic.license_key, lic.productId, LicenseStatus.cancelled,
              lic.expiration_date, lic.max_seats⟩
          (saveLicense s lic',
            LifecycleResult.ok LicenseStatus.cancelled lic.expiration_date)

/-- One mutating API call with its validated inputs (the per-request
wall-clock instant is part of the operation). -/
inductive Op where
  | provisionOp (brandId : Nat) (email : String) (reqs : List ProductRequest)
  | activateOp (lkId : Nat) (instId slug : String) (now : Int)
  | deactivateOp (lkId : Nat) (instId slug : String) (now : Int)
  | lifecycleOp (brandId licenseId : Nat) (action : LifecycleAction)
      (expiration_date : Option Int)
deriving DecidableEq

/-- The store after one call (responses discarded). -/
def stepOp (s : Store) : Op → Store
  | Op.provisionOp b e reqs => (provision s b e reqs).1
  | Op.activateOp lk i sl now => (activate s lk i sl now).1
  | Op.deactivateOp lk i sl now => (deactivate s lk i sl now).1
  | Op.lifecycleOp b lid a e => (update_lifecycle s b lid a e).1

def runOps (s : Store) (ops : List Op) : Store := ops.foldl stepOp s

/-- A deployment starts with its brand-onboarded products and an
otherwise empty store; every key, license and activation is produced by
the API operations. -/
def initStore (products : List ProductRec) : Store := ⟨products, [], [], [], 0⟩

/-! ## Concrete scenarios used by counterexamples and witnesses -/

/-- One active product `alpha`; a two-product provision request whose
second slug `beta` has no product. -/
def prodsC1 : List ProductRec := [⟨100, 0, "alpha", true⟩]

def reqsC1 : List ProductRequest := [⟨"alpha", none, none⟩, ⟨"beta", none, none⟩]

/-- A provision that is reachable through the serializer (it does not
validate `max_seats`) and creates a license with `max_seats = 0`, then an
activation against it. -/
def prodsA : List ProductRec := [⟨100, 0, "p", true⟩]

def opsA : List Op :=
  [Op.provisionOp 0 "e" [⟨"p", none, some 0⟩], Op.activateOp 0 "i" "p" 5]

/-- Provision, activate instance `i`, deactivate it, re-activate it:
the store now holds one inactive and one active row for `(license, i)`. -/
def prodsB : List ProductRec := [⟨100, 0, "p", true⟩]

def opsB : List Op :=
  [Op.provisionOp 0 "e" [⟨"p", none, some 5⟩], Op.activateOp 0 "i" "p" 1,
    Op.deactivateOp 0 "i" "p" 2, Op.activateOp 0 "i" "p" 3]

def storeB : Store := runOps (initStore prodsB) opsB

/-- A store holding one valid license with `max_seats = 0` and no
activations. -/
def storeC3 : Store :=
  ⟨[⟨100, 0, "p", true⟩], [⟨0, "K", 0, "e"⟩],
    [⟨1, 0, 100, LicenseStatus.valid, none, some 0⟩], [], 2⟩

/-- A store holding one cancelled license. -/
def storeC4 : Store :=
  ⟨[], [⟨0, "K", 0, "e"⟩],
    [⟨1, 0, 100, LicenseStatus.cancelled, none, none⟩], [], 2⟩

/-! ## C9 -/

/-- C9: `License.is_valid` equals `status == valid AND (expiration_date
is null OR expiration_date >= now)`, over all status and expiration
combinations — in particular it is false for suspended or cancelled
licenses and for non-null expiration dates strictly in the past. -/
theorem is_valid_characterization (st : LicenseStatus) (exp : Option Int)
    (now : Int) (i lk pid : Nat) (ms : Option Int) :
    is_valid ⟨i, lk, pid, st, exp, ms⟩ now =
      (decide (st = LicenseStatus.valid) &&
        exp.all (fun d => decide (now ≤ d))) := by
  cases st <;> cases exp <;>
    simp only [is_valid, Option.all_some, Option.all_none] <;>
    first
      | rfl
      | (rename_i d
         by_cases h : d < now <;> simp [h] <;> omega)

/-! ## C1 -/

/-- C1 (evidence of the defect): a provision request for `alpha` (which
exists) and `beta` (which does not) returns the product-not-found error,
yet the license key and the `alpha` license created earlier in the same
call remain in the store: the error `return` exits `transaction.atomic()`
normally, which commits instead of rolling back. -/
theorem provision_error_commits_partial_state :
    (provision (initStore prodsC1) 0 "e" reqsC1).2 =
        ProvisionResult.productNotFound "beta" ∧
    ((provision (initStore prodsC1) 0 "e" reqsC1).1).license_keys.length = 1 ∧
    ((provision (initStore prodsC1) 0 "e" reqsC1).1).licenses.length = 1 := by
  refine ⟨rfl, rfl, rfl⟩

/-! ## Counterexamples -/

/-- C2 counterexample: through provision (whose serializer does not
validate `max_seats`) and activation, a reachable store holds a license
whose `max_seats` is set to `0` while one activation is active for it —
the active count `1` exceeds the set `max_seats = 0`, because the seat
check `if license_obj.max_seats and ...` treats `0` as unset. -/
theorem seat_invariant_fails_for_zero_max_seats :
    (runOps (initStore prodsA) opsA).licenses =
        [⟨1, 0, 100, LicenseStatus.valid, none, some 0⟩] ∧
    active_count (runOps (initStore prodsA) opsA) 1 = 1 := by
  refine ⟨rfl, rfl⟩

/-- C3 counterexample: a valid license with `max_seats = 0` and zero
active activations (so the count has reached the limit) is activated
successfully — a new activation is created and `remaining_seats` is null
— instead of failing with the seat-limit error the claim requires. -/
theorem activate_ignores_zero_max_seats :
    active_count storeC3 1 = 0 ∧
    storeC3.licenses = [⟨1, 0, 100, LicenseStatus.valid, none, some 0⟩] ∧
    activate storeC3 0 "i" "p" 5 =
      ({ storeC3 with activations := [⟨2, 1, "i", 5, none, true⟩], nextId := 3 },
        ActivateResult.created 2 none) := by
  refine ⟨rfl, rfl, rfl⟩

/-- C4 counterexample: `renew` on a cancelled license updates the
expiration date but leaves the status `cancelled` — it does not move the
license to `valid` as the claim states (only `suspended` is
special-cased in the handler). -/
theorem renew_leaves_cancelled_license_cancelled :
    update_lifecycle storeC4 0 1 LifecycleAction.renew (some 99) =
      ({ storeC4 with
          licenses := [⟨1, 0, 100, LicenseStatus.cancelled, some 99, none⟩] },
        LifecycleResult.ok LicenseStatus.cancelled (some 99)) := by
  rfl

/-- C8 counterexample: after activate/deactivate/re-activate of the same
instance, an active activation exists for `(license, "i")`, yet
deactivating it again yields the internal error (the update collides
with the retained inactive row under `unique_together ["license",
"instance_id", "is_active"]`) and leaves the store unchanged — it does
not set the active row inactive as the claim states. -/
theorem deactivate_fails_despite_active_activation :
    storeB.activations.any (fun a =>
        a.licenseId == 1 && a.instance_id == "i" && a.is_active) = true ∧
    deactivate storeB 0 "i" "p" 9 = (storeB, DeactivateResult.internalError) := by
  refine ⟨rfl, rfl⟩

/-! ## C7 -/

/-- C7: when a license key already exists for `(brand, customer_email)`
and the single requested product slug resolves to an active product that
is already licensed on that key, provision leaves the store completely
unchanged — no second key and no duplicate license — and succeeds,
returning the existing key (with `created = false`) and the existing
license. -/
theorem provision_idempotent (s : Store) (brandId : Nat) (email slug : String)
    (exp : Option ExpInput) (maxS : Option Int)
    (k : LicenseKeyRec) (p : ProductRec) (existing : LicenseRec)
    (hk : s.license_keys.find? (fun k' =>
        k'.brandId == brandId && k'.customer_email == email) = some k)
    (hs : slug ≠ "")
    (hp : s.products.find? (fun p' =>
        p'.brandId == brandId && p'.slug == slug && p'.is_active) = some p)
    (hl : s.licenses.find? (fun l =>
        l.license_key == k.id && l.productId == p.id) = some existing) :
    provision s brandId email [⟨slug, exp, maxS⟩] =
      (s, ProvisionResult.ok k.key false [existing.id]) := by
  simp [provision, hk, provisionLoop, hs, hp, hl]

/-- C7 witness. -/
theorem provision_idempotent_witness :
    ((storeC3.license_keys.find? (fun k' =>
        k'.brandId == 0 && k'.customer_email == "e") = some ⟨0, "K", 0, "e"⟩) ∧
      ("p" ≠ "") ∧
      (storeC3.products.find? (fun p' =>
        p'.brandId == 0 && p'.slug == "p" && p'.is_active) =
          some ⟨100, 0, "p", true⟩) ∧
      (storeC3.licenses.find? (fun l =>
        l.license_key == 0 && l.productId == 100) =
          some ⟨1, 0, 100, LicenseStatus.valid, none, some 0⟩)) ∧
    provision storeC3 0 "e" [⟨"p", none, none⟩] =
      (storeC3, ProvisionResult.ok "K" false [1]) := by
  exact ⟨⟨by decide, by decide, by decide, by decide⟩,
    provision_idempotent storeC3 0 "e" "p" none none ⟨0, "K", 0, "e"⟩
      ⟨100, 0, "p", true⟩ ⟨1, 0, 100, LicenseStatus.valid, none, some 0⟩
      (by decide) (by decide) (by decide) (by decide)⟩

/-! ## C4 (amended) -/

/-- C4 (amended): for a license owned by the requesting brand, `renew`
always writes the supplied expiration date, moves a suspended license
back to `valid`, leaves a valid license `valid` — but leaves a cancelled
license `cancelled` (only suspension is cleared by the handler). -/
theorem renew_updates_expiration (s : Store) (brandId licenseId : Nat)
    (exp : Option Int) (lic : LicenseRec) (key : LicenseKeyRec)
    (h1 : s.licenses.find? (fun l => l.id == licenseId) = some lic)
    (h2 : s.license_keys.find? (fun k => k.id == lic.license_key) = some key)
    (h3 : key.brandId = brandId) :
    (update_lifecycle s brandId licenseId LifecycleAction.renew exp).2 =
      LifecycleResult.ok
        (if lic.status = LicenseStatus.suspended then LicenseStatus.valid
          else lic.status) exp ∧
    (∀ l ∈ (update_lifecycle s brandId licenseId LifecycleAction.renew exp).1.licenses,
      l.id = licenseId →
        l.expiration_date = exp ∧
        l.status = (if lic.status = LicenseStatus.suspended then LicenseStatus.valid
          else lic.status)) ∧
    (lic.status = LicenseStatus.suspended →
      (update_lifecycle s brandId licenseId LifecycleAction.renew exp).2 =
        LifecycleResult.ok LicenseStatus.valid exp) ∧
    (lic.status = LicenseStatus.cancelled →
      (update_lifecycle s brandId licenseId LifecycleAction.renew exp).2 =
        LifecycleResult.ok LicenseStatus.cancelled exp) := by
  have hid : lic.id = licenseId := by
    have := List.find?_some h1
    simpa using this
  have hrun : update_lifecycle s brandId licenseId LifecycleAction.renew exp =
      (saveLicense s ⟨lic.id, lic.license_key, lic.productId,
          (if lic.status = LicenseStatus.suspended then LicenseStatus.valid
            else lic.status), exp, lic.max_seats⟩,
        LifecycleResult.ok
          (if lic.status = LicenseStatus.suspended then LicenseStatus.valid
            else lic.status) exp) := by
    simp [update_lifecycle, h1, h2, h3]
  refine ⟨?_, ?_, ?_, ?_⟩
  · rw [hrun]
  · intro l hl hlid
    rw [hrun] at hl
    simp only [saveLicense] at hl
    rcases List.mem_map.mp hl with ⟨l0, hl0, heq⟩
    by_cases hc : l0.id = lic.id
    · simp only [hc, if_pos rfl] at heq
      subst heq
      exact ⟨rfl, rfl⟩
    · simp only [if_neg hc] at heq
      subst heq
      exact absurd (hlid.trans hid.symm) hc
  · intro hsusp
    rw [hrun]
    simp [hsusp]
  · intro hcan
    rw [hrun]
    simp [hcan]

/-- C4 witness: renewing a suspended license moves it to `valid` with
the supplied expiration date. -/
def storeC45 : Store :=
  ⟨[], [⟨0, "K", 7, "e"⟩],
    [⟨1, 0, 100, LicenseStatus.suspended, some 10, some 3⟩], [], 2⟩

theorem renew_updates_expiration_witness :
    ((storeC45.licenses.find? (fun l => l.id == 1) =
        some ⟨1, 0, 100, LicenseStatus.suspended, some 10, some 3⟩) ∧
      (storeC45.license_keys.find? (fun k => k.id == 0) = some ⟨0, "K", 7, "e"⟩) ∧
      ((⟨0, "K", 7, "e"⟩ : LicenseKeyRec).brandId = 7)) ∧
    ((update_lifecycle storeC45 7 1 LifecycleAction.renew (some 50)).2 =
        LifecycleResult.ok
          (if (⟨1, 0, 100, LicenseStatus.suspended, some 10, some 3⟩ :
              LicenseRec).status = LicenseStatus.suspended then LicenseStatus.valid
            else LicenseStatus.suspended) (some 50) ∧
      (∀ l ∈ (update_lifecycle storeC45 7 1 LifecycleAction.renew (some 50)).1.licenses,
        l.id = 1 →
          l.expiration_date = some 50 ∧
          l.status = (if (⟨1, 0, 100, LicenseStatus.suspended, some 10, some 3⟩ :
              LicenseRec).status = LicenseStatus.suspended then LicenseStatus.valid
            else LicenseStatus.suspended)) ∧
      ((⟨1, 0, 100, LicenseStatus.suspended, some 10, some 3⟩ :
          LicenseRec).status = LicenseStatus.suspended →
        (update_lifecycle storeC45 7 1 LifecycleAction.renew (some 50)).2 =
          LifecycleResult.ok LicenseStatus.valid (some 50)) ∧
      ((⟨1, 0, 100, LicenseStatus.suspended, some 10, some 3⟩ :
          LicenseRec).status = LicenseStatus.cancelled →
        (update_lifecycle storeC45 7 1 LifecycleAction.renew (some 50)).2 =
          LifecycleResult.ok LicenseStatus.cancelled (some 50))) := by
  exact ⟨⟨by decide, by decide, by decide⟩,
    renew_updates_expiration storeC45 7 1 (some 50)
      ⟨1, 0, 100, LicenseStatus.suspended, some 10, some 3⟩ ⟨0, "K", 7, "e"⟩
      (by decide) (by decide) (by decide)⟩

/-! ## C5 -/

/-- C5: lifecycle transition legality for a license owned by the
requesting brand (with unique primary keys, as in the database):
`suspend` on a valid license yields `suspended`; `suspend` on a
cancelled license fails with the validation error and changes nothing;
`resume` on a non-suspended license fails with the validation error and
changes nothing; `cancel` always succeeds and sets `cancelled`; and
re-cancelling an already-cancelled license succeeds as a no-op — the
store is returned unchanged, not an error. -/
theorem lifecycle_transition_legality (s : Store) (brandId licenseId : Nat)
    (lic : LicenseRec) (key : LicenseKeyRec)
    (hnd : (s.licenses.map (fun l => l.id)).Nodup)
    (h1 : s.licenses.find? (fun l => l.id == licenseId) = some lic)
    (h2 : s.license_keys.find? (fun k => k.id == lic.license_key) = some key)
    (h3 : key.brandId = brandId) :
    (lic.status = LicenseStatus.valid →
      (update_lifecycle s brandId licenseId LifecycleAction.suspend none).2 =
        LifecycleResult.ok LicenseStatus.suspended lic.expiration_date ∧
      (∀ l ∈ (update_lifecycle s brandId licenseId LifecycleAction.suspend none).1.licenses,
        l.id = licenseId → l.status = LicenseStatus.suspended)) ∧
    (lic.status = LicenseStatus.cancelled →
      update_lifecycle s brandId licenseId LifecycleAction.suspend none =
        (s, LifecycleResult.cannotSuspendCancelled)) ∧
    (lic.status ≠ LicenseStatus.suspended →
      update_lifecycle s brandId licenseId LifecycleAction.resume none =
        (s, LifecycleResult.licenseNotSuspended)) ∧
    ((update_lifecycle s brandId licenseId LifecycleAction.cancel none).2 =
        LifecycleResult.ok LicenseStatus.cancelled lic.expiration_date ∧
      (∀ l ∈ (update_lifecycle s brandId licenseId LifecycleAction.cancel none).1.licenses,
        l.id = licenseId → l.status = LicenseStatus.cancelled)) ∧
    (lic.status = LicenseStatus.cancelled →
      update_lifecycle s brandId licenseId LifecycleAction.cancel none =
        (s, LifecycleResult.ok LicenseStatus.cancelled lic.expiration_date)) := by
  have hid : lic.id = licenseId := by
    have := List.find?_some h1
    simpa using this
  have hmem : lic ∈ s.licenses := List.mem_of_find?_eq_some h1
  have memStatus : ∀ (st : LicenseStatus) (t : List LicenseRec),
      t = s.licenses.map (fun l =>
        if l.id = lic.id then
          ⟨lic.id, lic.license_key, lic.productId, st,
            lic.expiration_date, lic.max_seats⟩
        else l) →
      ∀ l ∈ t, l.id = licenseId → l.status = st := by
    intro st t ht l hl hlid
    subst ht
    rcases List.mem_map.mp hl with ⟨l0, hl0, heq⟩
    by_cases hc : l0.id = lic.id
    · simp only [hc, if_pos rfl] at heq
      subst heq
      rfl
    · simp only [if_neg hc] at heq
      subst heq
      exact absurd (hlid.trans hid.symm) hc
  refine ⟨?_, ?_, ?_, ?_, ?_⟩
  · intro hv
    have hnc : lic.status ≠ LicenseStatus.cancelled := by
      rw [hv]
      exact fun h => LicenseStatus.noConfusion h
    constructor
    · simp [update_lifecycle, h1, h2, h3, hnc]
    · intro l hl hlid
      exact memStatus LicenseStatus.suspended _ rfl l
        (by simpa [update_lifecycle, h1, h2, h3, hnc, saveLicense] using hl) hlid
  · intro hc
    simp [update_lifecycle, h1, h2, h3, hc]
  · intro hns
    simp [update_lifecycle, h1, h2, h3, hns]
  · constructor
    · simp [update_lifecycle, h1, h2, h3]
    · intro l hl hlid
      exact memStatus LicenseStatus.cancelled _ rfl l
        (by simpa [update_lifecycle, h1, h2, h3, saveLicense] using hl) hlid
  · intro hc
    have hsame : (⟨lic.id, lic.license_key, lic.productId, LicenseStatus.cancelled,
        lic.expiration_date, lic.max_seats⟩ : LicenseRec) = lic := by
      cases lic
      simp_all
    have hmap : s.licenses.map (fun l => if l.id = lic.id then lic else l) =
        s.licenses := by
      have hpt : ∀ l ∈ s.licenses, (if l.id = lic.id then lic else l) = id l := by
        intro l hl
        by_cases hc' : l.id = lic.id
        · rw [if_pos hc']
          exact (List.inj_on_of_nodup_map hnd hl hmem hc').symm
        · rw [if_neg hc']
          rfl
      rw [List.map_congr_left hpt, List.map_id]
    simp [update_lifecycle, h1, h2, h3, saveLicense, hsame, hmap]

/-- C5 witness: in a concrete store with one cancelled license,
re-cancelling succeeds as a no-op (store unchanged, success response). -/
theorem lifecycle_transition_legality_witness :
    ((storeC4.licenses.map (fun l => l.id)).Nodup ∧
      storeC4.licenses.find? (fun l => l.id == 1) =
        some ⟨1, 0, 100, LicenseStatus.cancelled, none, none⟩ ∧
      storeC4.license_keys.find? (fun k => k.id == 0) = some ⟨0, "K", 0, "e"⟩ ∧
      (⟨0, "K", 0, "e"⟩ : LicenseKeyRec).brandId = 0) ∧
    update_lifecycle storeC4 0 1 LifecycleAction.cancel none =
      (storeC4, LifecycleResult.ok LicenseStatus.cancelled none) := by
  refine ⟨⟨by decide, by decide, by decide, by decide⟩, ?_⟩
  exact (lifecycle_transition_legality storeC4 0 1
      ⟨1, 0, 100, LicenseStatus.cancelled, none, none⟩ ⟨0, "K", 0, "e"⟩
      (by decide) (by decide) (by decide) (by decide)).2.2.2.2 rfl

/-! ## C3 (amended) -/

/-- C3 (amended): for an activate call on a valid license with no
existing active activation for the instance and `max_seats` set to a
nonzero value `m`: if the active count has reached `m` the call fails
with the seat-limit response (HTTP 403, distinct from the 400 of
ordinary validation failures) and changes nothing; if the count is below
`m` a new active activation row is appended and the response carries
`remaining_seats = m - (active_count_before + 1)`.  (The claim's guard
"max_seats is set" must be narrowed to "set and nonzero": `max_seats =
0` is skipped by the truthiness check, see the counterexample.) -/
theorem activate_seat_accounting (s : Store) (lkId : Nat) (instId slug : String)
    (now : Int) (lic : LicenseRec) (m : Int)
    (h1 : findLicense s lkId slug = some lic)
    (h2 : is_valid lic now = true)
    (h3 : s.activations.find? (fun a =>
        a.licenseId == lic.id && a.instance_id == instId && a.is_active) = none)
    (h4 : lic.max_seats = some m) (h5 : m ≠ 0) :
    (m ≤ (active_count s lic.id : Int) →
      activate s lkId instId slug now = (s, ActivateResult.seatLimitReached (some m)) ∧
      activateHttpStatus (ActivateResult.seatLimitReached (some m)) = 403 ∧
      (∀ st, activateHttpStatus (ActivateResult.invalidLicense st) = 400)) ∧
    ((active_count s lic.id : Int) < m →
      (activate s lkId instId slug now).2 =
        ActivateResult.created s.nextId
          (some (m - ((active_count s lic.id : Int) + 1))) ∧
      (activate s lkId instId slug now).1.activations =
        s.activations ++ [⟨s.nextId, lic.id, instId, now, none, true⟩] ∧
      active_count (activate s lkId instId slug now).1 lic.id =
        active_count s lic.id + 1) := by
  constructor
  · intro hge
    have hhit : seat_limit_hit (some m) (active_count s lic.id) = true := by
      simp [seat_limit_hit, h5, hge]
    simp [activate, h1, h2, h3, h4, hhit, activateHttpStatus]
  · intro hlt
    have hmiss : seat_limit_hit (some m) (active_count s lic.id) = false := by
      simp only [seat_limit_hit, if_neg h5]
      simpa using not_le.mpr hlt
    have hcall : activate s lkId instId slug now =
        ((⟨s.products, s.license_keys, s.licenses,
            s.activations ++ [⟨s.nextId, lic.id, instId, now, none, true⟩],
            s.nextId + 1⟩ : Store),
          ActivateResult.created s.nextId
            (remainingAfterCreate (some m) (active_count s lic.id))) := by
      simp [activate, h1, h2, h3, h4, hmiss]
    refine ⟨?_, ?_, ?_⟩
    · rw [hcall]
      have harith : m - ((active_count s lic.id : Int) + 1) =
          m - (active_count s lic.id : Int) - 1 := by ring
      rw [harith]
      simp [remainingAfterCreate, h5]
    · rw [hcall]
    · rw [hcall]
      simp [active_count, List.countP_append, List.countP_cons]

/-- A valid license with `max_seats = 2` and one active activation on a
different instance. -/
def storeC3w : Store :=
  ⟨[⟨100, 0, "p", true⟩], [⟨0, "K", 0, "e"⟩],
    [⟨1, 0, 100, LicenseStatus.valid, none, some 2⟩],
    [⟨5, 1, "other", 0, none, true⟩], 6⟩

/-- C3 witness: activating a fresh instance with one of two seats taken
succeeds with `remaining_seats = 0` and appends the new activation. -/
theorem activate_seat_accounting_witness :
    (findLicense storeC3w 0 "p" =
        some ⟨1, 0, 100, LicenseStatus.valid, none, some 2⟩ ∧
      is_valid ⟨1, 0, 100, LicenseStatus.valid, none, some 2⟩ 3 = true ∧
      storeC3w.activations.find? (fun a =>
        a.licenseId == 1 && a.instance_id == "i" && a.is_active) = none ∧
      (⟨1, 0, 100, LicenseStatus.valid, none, some 2⟩ : LicenseRec).max_seats =
        some 2 ∧
      (2 : Int) ≠ 0 ∧ ((active_count storeC3w 1 : Int) < 2)) ∧
    ((activate storeC3w 0 "i" "p" 3).2 =
        ActivateResult.created 6 (some (2 - ((active_count storeC3w 1 : Int) + 1))) ∧
      (activate storeC3w 0 "i" "p" 3).1.activations =
        storeC3w.activations ++ [⟨6, 1, "i", 3, none, true⟩] ∧
      active_count (activate storeC3w 0 "i" "p" 3).1 1 =
        active_count storeC3w 1 + 1) := by
  refine ⟨⟨by decide, by decide, by decide, by decide, by decide, by decide⟩, ?_⟩
  exact (activate_seat_accounting storeC3w 0 "i" "p" 3
      ⟨1, 0, 100, LicenseStatus.valid, none, some 2⟩ 2
      (by decide) (by decide) (by decide) (by decide) (by decide)).2 (by decide)

/-! ## C6 -/

theorem find?_append_left_none {α : Type} (p : α → Bool) (l₁ l₂ : List α)
    (h : l₁.find? p = none) : (l₁ ++ l₂).find? p = l₂.find? p := by
  simp [List.find?_append, h]

/-- C6: activation is idempotent per instance.  For a resolvable, valid
license with no activation row at all for `(license, instance_id)` and a
free seat, the first activate call succeeds with a new activation, and
the second call with the same instance returns that same activation as a
success (not an error), mutates nothing, and the store ends with exactly
one activation row for the pair. -/
theorem activate_idempotent_per_instance (s : Store) (lkId : Nat)
    (instId slug : String) (now : Int) (lic : LicenseRec)
    (h1 : findLicense s lkId slug = some lic)
    (h2 : is_valid lic now = true)
    (h3 : ∀ a ∈ s.activations, ¬(a.licenseId = lic.id ∧ a.instance_id = instId))
    (h4 : seat_limit_hit lic.max_seats (active_count s lic.id) = false) :
    (activate s lkId instId slug now).2 =
      ActivateResult.created s.nextId
        (remainingAfterCreate lic.max_seats (active_count s lic.id)) ∧
    (activate (activate s lkId instId slug now).1 lkId instId slug now).2 =
      ActivateResult.alreadyActive s.nextId ∧
    (activate (activate s lkId instId slug now).1 lkId instId slug now).1 =
      (activate s lkId instId slug now).1 ∧
    (activate (activate s lkId instId slug now).1 lkId instId slug now).1.activations.countP
      (fun a => a.licenseId == lic.id && a.instance_id == instId) = 1 := by
  have hfind : s.activations.find? (fun a =>
      a.licenseId == lic.id && a.instance_id == instId && a.is_active) = none := by
    refine List.find?_eq_none.mpr ?_
    intro a ha
    have := h3 a ha
    simp only [Bool.and_eq_true, beq_iff_eq, not_and]
    intro hl
    rcases hl with ⟨hlic, hinst⟩
    exact absurd ⟨hlic, hinst⟩ this
  have hcall : activate s lkId instId slug now =
      ((⟨s.products, s.license_keys, s.licenses,
          s.activations ++ [⟨s.nextId, lic.id, instId, now, none, true⟩],
          s.nextId + 1⟩ : Store),
        ActivateResult.created s.nextId
          (remainingAfterCreate lic.max_seats (active_count s lic.id))) := by
    simp [activate, h1, h2, hfind, h4]
  have hfind1 : findLicense (activate s lkId instId slug now).1 lkId slug =
      some lic := by
    rw [hcall]
    simpa [findLicense] using h1
  have hfind2 : (activate s lkId instId slug now).1.activations.find? (fun a =>
      a.licenseId == lic.id && a.instance_id == instId && a.is_active) =
        some ⟨s.nextId, lic.id, instId, now, none, true⟩ := by
    rw [hcall]
    rw [find?_append_left_none _ _ _ hfind]
    simp [List.find?_cons]
  have hgen : ∀ s1 : Store, findLicense s1 lkId slug = some lic →
      s1.activations.find? (fun a =>
        a.licenseId == lic.id && a.instance_id == instId && a.is_active) =
          some ⟨s.nextId, lic.id, instId, now, none, true⟩ →
      activate s1 lkId instId slug now = (s1, ActivateResult.alreadyActive s.nextId) := by
    intro s1 hf hfa
    simp [activate, hf, h2, hfa]
  have hcall2 : activate (activate s lkId instId slug now).1 lkId instId slug now =
      ((activate s lkId instId slug now).1, ActivateResult.alreadyActive s.nextId) :=
    hgen _ hfind1 hfind2
  refine ⟨by rw [hcall], by rw [hcall2], by rw [hcall2], ?_⟩
  rw [hcall2, hcall]
  have hzero : s.activations.countP
      (fun a => a.licenseId == lic.id && a.instance_id == instId) = 0 := by
    refine List.countP_eq_zero.mpr ?_
    intro a ha
    have := h3 a ha
    simp only [Bool.and_eq_true, beq_iff_eq, not_and]
    intro hlic hinst
    exact absurd ⟨hlic, hinst⟩ this
  simp [List.countP_append, List.countP_cons, hzero]

/-- A valid license with two seats and no activations yet. -/
def storeC6 : Store :=
  ⟨[⟨100, 0, "p", true⟩], [⟨0, "K", 0, "e"⟩],
    [⟨1, 0, 100, LicenseStatus.valid, none, some 2⟩], [], 2⟩

/-- C6 witness: activating instance `i` twice yields one row and two
success responses on a concrete store. -/
theorem activate_idempotent_per_instance_witness :
    (findLicense storeC6 0 "p" =
        some ⟨1, 0, 100, LicenseStatus.valid, none, some 2⟩ ∧
      is_valid ⟨1, 0, 100, LicenseStatus.valid, none, some 2⟩ 3 = true ∧
      (∀ a ∈ storeC6.activations, ¬(a.licenseId = 1 ∧ a.instance_id = "i")) ∧
      seat_limit_hit (some 2) (active_count storeC6 1) = false) ∧
    ((activate storeC6 0 "i" "p" 3).2 =
        ActivateResult.created 2
          (remainingAfterCreate (some 2) (active_count storeC6 1)) ∧
      (activate (activate storeC6 0 "i" "p" 3).1 0 "i" "p" 3).2 =
        ActivateResult.alreadyActive 2 ∧
      (activate (activate storeC6 0 "i" "p" 3).1 0 "i" "p" 3).1 =
        (activate storeC6 0 "i" "p" 3).1 ∧
      (activate (activate storeC6 0 "i" "p" 3).1 0 "i" "p" 3).1.activations.countP
        (fun a => a.licenseId == 1 && a.instance_id == "i") = 1) := by
  refine ⟨⟨by decide, by decide, by decide, by decide⟩, ?_⟩
  exact activate_idempotent_per_instance storeC6 0 "i" "p" 3
    ⟨1, 0, 100, LicenseStatus.valid, none, some 2⟩
    (by decide) (by decide) (by decide) (by decide)

/-! ## C8 (amended) -/

/-- C8 (amended): for a resolvable license, deactivate fails NotFound
and leaves the store unchanged when no active activation exists for
`(license, instance_id)`; when an active activation exists — and no
deactivated row for the same pair is already retained (otherwise the
unique constraint aborts the call, see the counterexample) — it flips
exactly that row to inactive, stamps `deactivated_at = now`, retains all
rows, and returns the remaining seat count recomputed from the
post-update store. -/
theorem deactivate_spec (s : Store) (lkId : Nat) (instId slug : String)
    (now : Int) (lic : LicenseRec)
    (h1 : findLicense s lkId slug = some lic) :
    (s.activations.find? (fun a =>
        a.licenseId == lic.id && a.instance_id == instId && a.is_active) = none →
      deactivate s lkId instId slug now = (s, DeactivateResult.activationNotFound)) ∧
    (∀ act, s.activations.find? (fun a =>
        a.licenseId == lic.id && a.instance_id == instId && a.is_active) = some act →
      (∀ a ∈ s.activations, a.id ≠ act.id →
        ¬(a.licenseId = lic.id ∧ a.instance_id = instId ∧ a.is_active = false)) →
      (deactivate s lkId instId slug now).2 =
        DeactivateResult.ok (remainingTruthy lic.max_seats
          (active_count (deactivate s lkId instId slug now).1 lic.id)) ∧
      (deactivate s lkId instId slug now).1.activations.length =
        s.activations.length ∧
      (∀ a ∈ (deactivate s lkId instId slug now).1.activations,
        a.id = act.id → a.is_active = false ∧ a.deactivated_at = some now) ∧
      (∀ a ∈ s.activations, a.id ≠ act.id →
        a ∈ (deactivate s lkId instId slug now).1.activations)) := by
  constructor
  · intro hnone
    simp [deactivate, h1, hnone]
  · intro act hact hnodup
    have hany : s.activations.any (fun a =>
        a.id != act.id && a.licenseId == lic.id &&
          a.instance_id == instId && !a.is_active) = false := by
      refine List.any_eq_false.mpr ?_
      intro a ha
      by_cases hid : a.id = act.id
      · simp [hid]
      · have := hnodup a ha hid
        simp only [Bool.and_eq_true, bne_iff_ne, ne_eq, beq_iff_eq,
          Bool.not_eq_true', not_and]
        intro h
        rcases h with ⟨⟨_, hlic⟩, hinst⟩
        intro hina
        exact this ⟨hlic, hinst, hina⟩
    have hcall : deactivate s lkId instId slug now =
        ((⟨s.products, s.license_keys, s.licenses,
            s.activations.map (fun a =>
              if a.id = act.id then
                ⟨a.id, a.licenseId, a.instance_id, a.activated_at, some now, false⟩
              else a),
            s.nextId⟩ : Store),
          DeactivateResult.ok (remainingTruthy lic.max_seats
            (active_count (⟨s.products, s.license_keys, s.licenses,
              s.activations.map (fun a =>
                if a.id = act.id then
                  ⟨a.id, a.licenseId, a.instance_id, a.activated_at, some now, false⟩
                else a),
              s.nextId⟩ : Store) lic.id))) := by
      simp [deactivate, h1, hact, hany]
    rw [hcall]
    refine ⟨rfl, by simp, ?_, ?_⟩
    · intro a ha haid
      rcases List.mem_map.mp ha with ⟨a0, ha0, heq⟩
      by_cases hc : a0.id = act.id
      · rw [if_pos hc] at heq
        subst heq
        exact ⟨rfl, rfl⟩
      · rw [if_neg hc] at heq
        subst heq
        exact absurd haid hc
    · intro a ha haid
      have : (if a.id = act.id then
          (⟨a.id, a.licenseId, a.instance_id, a.activated_at, some now, false⟩ :
            ActivationRec)
        else a) = a := if_neg haid
      rw [← this]
      exact List.mem_map.mpr ⟨a, ha, rfl⟩

/-- C8 witness: deactivating the single active activation of a concrete
store flips it, stamps the time, retains the row and reports the
recomputed remaining count. -/
theorem deactivate_spec_witness :
    (findLicense storeC3w 0 "p" =
        some ⟨1, 0, 100, LicenseStatus.valid, none, some 2⟩ ∧
      storeC3w.activations.find? (fun a =>
        a.licenseId == 1 && a.instance_id == "other" && a.is_active) =
          some ⟨5, 1, "other", 0, none, true⟩ ∧
      (∀ a ∈ storeC3w.activations, a.id ≠ 5 →
        ¬(a.licenseId = 1 ∧ a.instance_id = "other" ∧ a.is_active = false))) ∧
    ((deactivate storeC3w 0 "other" "p" 9).2 =
        DeactivateResult.ok (remainingTruthy (some 2)
          (active_count (deactivate storeC3w 0 "other" "p" 9).1 1)) ∧
      (deactivate storeC3w 0 "other" "p" 9).1.activations.length =
        storeC3w.activations.length ∧
      (∀ a ∈ (deactivate storeC3w 0 "other" "p" 9).1.activations,
        a.id = 5 → a.is_active = false ∧ a.deactivated_at = some 9) ∧
      (∀ a ∈ storeC3w.activations, a.id ≠ 5 →
        a ∈ (deactivate storeC3w 0 "other" "p" 9).1.activations)) := by
  refine ⟨⟨by decide, by decide, by decide⟩, ?_⟩
  exact (deactivate_spec storeC3w 0 "other" "p" 9
      ⟨1, 0, 100, LicenseStatus.valid, none, some 2⟩ (by decide)).2
    ⟨5, 1, "other", 0, none, true⟩ (by decide) (by decide)

/-! ## Reachable-store invariants (C2, C10) -/

/-- Invariants maintained by every API operation over stores built from
`initStore`: primary keys are fresh and unique, activations reference
already-created licenses, the active count respects every positive seat
limit, and the database constraint `unique_together ["license",
"instance_id", "is_active"]` holds. -/
structure StoreInv (s : Store) : Prop where
  licFresh : ∀ l ∈ s.licenses, l.id < s.nextId
  actFresh : ∀ a ∈ s.activations, a.id < s.nextId
  actRef : ∀ a ∈ s.activations, a.licenseId < s.nextId
  licNodup : (s.licenses.map (fun l => l.id)).Nodup
  actNodup : (s.activations.map (fun a => a.id)).Nodup
  seats : ∀ lic ∈ s.licenses, ∀ m : Int, lic.max_seats = some m → 0 < m →
    (active_count s lic.id : Int) ≤ m
  triple : s.activations.Pairwise (fun a b =>
    ¬(a.licenseId = b.licenseId ∧ a.instance_id = b.instance_id ∧
      a.is_active = b.is_active))

theorem saveLicense_inv (s : Store) (lic lic' : LicenseRec)
    (h : StoreInv s) (hmem : lic ∈ s.licenses)
    (hid : lic'.id = lic.id) (hms : lic'.max_seats = lic.max_seats) :
    StoreInv (saveLicense s lic') := by
  have hcnt : ∀ lid, active_count (saveLicense s lic') lid = active_count s lid := by
    intro lid
    rfl
  refine ⟨?_, h.actFresh, h.actRef, ?_, h.actNodup, ?_, h.triple⟩
  · intro l hl
    rcases List.mem_map.mp hl with ⟨l0, hl0, heq⟩
    by_cases hc : l0.id = lic'.id
    · rw [if_pos hc] at heq
      subst heq
      rw [hid]
      exact h.licFresh lic hmem
    · rw [if_neg hc] at heq
      subst heq
      exact h.licFresh l0 hl0
  · have : (saveLicense s lic').licenses.map (fun l => l.id) =
        s.licenses.map (fun l => l.id) := by
      simp only [saveLicense, List.map_map]
      refine List.map_congr_left ?_
      intro l hl
      by_cases hc : l.id = lic'.id
      · simp [hc]
      · simp [hc]
    rw [this]
    exact h.licNodup
  · intro lic2 hmem2 m hm hmpos
    rw [hcnt]
    rcases List.mem_map.mp hmem2 with ⟨l0, hl0, heq⟩
    by_cases hc : l0.id = lic'.id
    · rw [if_pos hc] at heq
      subst heq
      have hml : lic.max_seats = some m := by rw [← hms]; exact hm
      have := h.seats lic hmem m hml hmpos
      rw [hid]
      exact this
    · rw [if_neg hc] at heq
      subst heq
      exact h.seats l0 hl0 m hm hmpos

theorem update_lifecycle_inv (s : Store) (b lid : Nat) (a : LifecycleAction)
    (e : Option Int) (h : StoreInv s) : StoreInv (update_lifecycle s b lid a e).1 := by
  cases hfind : s.licenses.find? (fun l => l.id == lid) with
  | none =>
    have heq : (update_lifecycle s b lid a e).1 = s := by
      simp [update_lifecycle, hfind]
    rw [heq]
    exact h
  | some lic =>
    have hmem := List.mem_of_find?_eq_some hfind
    cases hkey : s.license_keys.find? (fun k => k.id == lic.license_key) with
    | none =>
      have heq : (update_lifecycle s b lid a e).1 = s := by
        simp [update_lifecycle, hfind, hkey]
      rw [heq]
      exact h
    | some key =>
      by_cases hb : key.brandId = b
      · cases a with
        | renew =>
          have heq : (update_lifecycle s b lid LifecycleAction.renew e).1 =
              saveLicense s ⟨lic.id, lic.license_key, lic.productId,
                (if lic.status = LicenseStatus.suspended then LicenseStatus.valid
                  else lic.status), e, lic.max_seats⟩ := by
            simp [update_lifecycle, hfind, hkey, hb]
          rw [heq]
          exact saveLicense_inv s lic _ h hmem rfl rfl
        | suspend =>
          by_cases hc : lic.status = LicenseStatus.cancelled
          · have heq : (update_lifecycle s b lid LifecycleAction.suspend e).1 = s := by
              simp [update_lifecycle, hfind, hkey, hb, hc]
            rw [heq]
            exact h
          · have heq : (update_lifecycle s b lid LifecycleAction.suspend e).1 =
                saveLicense s ⟨lic.id, lic.license_key, lic.productId,
                  LicenseStatus.suspended, lic.expiration_date, lic.max_seats⟩ := by
              simp [update_lifecycle, hfind, hkey, hb, hc]
            rw [heq]
            exact saveLicense_inv s lic _ h hmem rfl rfl
        | resume =>
          by_cases hc : lic.status = LicenseStatus.suspended
          · have heq : (update_lifecycle s b lid LifecycleAction.resume e).1 =
                saveLicense s ⟨lic.id, lic.license_key, lic.productId,
                  LicenseStatus.valid, lic.expiration_date, lic.max_seats⟩ := by
              simp [update_lifecycle, hfind, hkey, hb, hc]
            rw [heq]
            exact saveLicense_inv s lic _ h hmem rfl rfl
          · have heq : (update_lifecycle s b lid LifecycleAction.resume e).1 = s := by
              simp [update_lifecycle, hfind, hkey, hb, hc]
            rw [heq]
            exact h
        | cancel =>
          have heq : (update_lifecycle s b lid LifecycleAction.cancel e).1 =
              saveLicense s ⟨lic.id, lic.license_key, lic.productId,
                LicenseStatus.cancelled, lic.expiration_date, lic.max_seats⟩ := by
            simp [update_lifecycle, hfind, hkey, hb]
          rw [heq]
          exact saveLicense_inv s lic _ h hmem rfl rfl
      · have heq : (update_lifecycle s b lid a e).1 = s := by
          simp [update_lifecycle, hfind, hkey, hb]
        rw [heq]
        exact h

theorem activate_inv (s : Store) (lk : Nat) (i sl : String) (now : Int)
    (h : StoreInv s) : StoreInv (activate s lk i sl now).1 := by
  cases hf : findLicense s lk sl with
  | none =>
    have heq : (activate s lk i sl now).1 = s := by
      simp [activate, hf]
    rw [heq]
    exact h
  | some lic =>
    have hmem : lic ∈ s.licenses := List.mem_of_find?_eq_some hf
    by_cases hv : is_valid lic now = true
    · cases hded : s.activations.find? (fun a =>
          a.licenseId == lic.id && a.instance_id == i && a.is_active) with
      | some ex =>
        have heq : (activate s lk i sl now).1 = s := by
          simp [activate, hf, hv, hded]
        rw [heq]
        exact h
      | none =>
        by_cases hhit : seat_limit_hit lic.max_seats (active_count s lic.id) = true
        · have heq : (activate s lk i sl now).1 = s := by
            simp [activate, hf, hv, hded, hhit]
          rw [heq]
          exact h
        · have heq : (activate s lk i sl now).1 =
              ⟨s.products, s.license_keys, s.licenses,
                s.activations ++ [⟨s.nextId, lic.id, i, now, none, true⟩],
                s.nextId + 1⟩ := by
            simp [activate, hf, hv, hded, hhit]
          rw [heq]
          have hnodeded : ∀ a ∈ s.activations,
              ¬(a.licenseId = lic.id ∧ a.instance_id = i ∧ a.is_active = true) := by
            intro a ha hcontra
            have := List.find?_eq_none.mp hded a ha
            simp only [Bool.and_eq_true, beq_iff_eq, not_and] at this
            exact this ⟨hcontra.1, hcontra.2.1⟩ hcontra.2.2
          refine ⟨?_, ?_, ?_, ?_, ?_, ?_, ?_⟩
          · intro l hl
            exact Nat.lt_succ_of_lt (h.licFresh l hl)
          · intro a ha
            rcases List.mem_append.mp ha with ha | ha
            · exact Nat.lt_succ_of_lt (h.actFresh a ha)
            · rcases List.mem_singleton.mp ha with rfl
              exact Nat.lt_succ_self _
          · intro a ha
            rcases List.mem_append.mp ha with ha | ha
            · exact Nat.lt_succ_of_lt (h.actRef a ha)
            · rcases List.mem_singleton.mp ha with rfl
              exact Nat.lt_succ_of_lt (h.licFresh lic hmem)
          · exact h.licNodup
          · rw [List.map_append, List.nodup_append]
            refine ⟨h.actNodup, List.nodup_singleton _, ?_⟩
            intro x hx hx2
            rcases List.mem_map.mp hx with ⟨a, ha, rfl⟩
            have hlt := h.actFresh a ha
            have hxeq : a.id = s.nextId := by simpa using hx2
            omega
          · intro lic2 hmem2 m hm hmpos
            have hcnt : active_count
                (⟨s.products, s.license_keys, s.licenses,
                  s.activations ++ [⟨s.nextId, lic.id, i, now, none, true⟩],
                  s.nextId + 1⟩ : Store) lic2.id =
                active_count s lic2.id +
                  (if lic.id = lic2.id then 1 else 0) := by
              simp only [active_count, List.countP_append, List.countP_cons,
                List.countP_nil]
              by_cases hid : lic.id = lic2.id
              · simp [hid]
              · simp [hid]
            rw [hcnt]
            by_cases hid : lic.id = lic2.id
            · have hsame : lic2 = lic :=
                List.inj_on_of_nodup_map h.licNodup hmem2 hmem hid.symm
              subst hsame
              have hml : lic2.max_seats = some m := hm
              have hmne : m ≠ 0 := by omega
              have : ¬(m ≤ (active_count s lic2.id : Int)) := by
                intro hle
                apply hhit
                simp [seat_limit_hit, hml, hmne, hle]
              simp only [hid, if_pos rfl]
              push_cast
              omega
            · simp only [hid, if_neg hid]
              simpa using h.seats lic2 hmem2 m hm hmpos
          · rw [List.pairwise_append]
            refine ⟨h.triple, List.pairwise_singleton _ _, ?_⟩
            intro a ha b hb
            rcases List.mem_singleton.mp hb with rfl
            intro hcontra
            exact hnodeded a ha ⟨hcontra.1, hcontra.2.1, hcontra.2.2⟩
    · have heq : (activate s lk i sl now).1 = s := by
        simp [activate, hf, hv]
      rw [heq]
      exact h

theorem deactivate_inv (s : Store) (lk : Nat) (i sl : String) (now : Int)
    (h : StoreInv s) : StoreInv (deactivate s lk i sl now).1 := by
  cases hf : findLicense s lk sl with
  | none =>
    have heq : (deactivate s lk i sl now).1 = s := by
      simp [deactivate, hf]
    rw [heq]
    exact h
  | some lic =>
    cases hded : s.activations.find? (fun a =>
        a.licenseId == lic.id && a.instance_id == i && a.is_active) with
    | none =>
      have heq : (deactivate s lk i sl now).1 = s := by
        simp [deactivate, hf, hded]
      rw [heq]
      exact h
    | some act =>
      have hactmem : act ∈ s.activations := List.mem_of_find?_eq_some hded
      have hactp := List.find?_some hded
      simp only [Bool.and_eq_true, beq_iff_eq] at hactp
      by_cases hany : s.activations.any (fun a =>
          a.id != act.id && a.licenseId == lic.id &&
            a.instance_id == i && !a.is_active) = true
      · have heq : (deactivate s lk i sl now).1 = s := by
          simp [deactivate, hf, hded, hany]
        rw [heq]
        exact h
      · have hany0 : s.activations.any (fun a =>
            a.id != act.id && a.licenseId == lic.id &&
              a.instance_id == i && !a.is_active) = false := by
          simpa using hany
        have hanyf : ∀ a ∈ s.activations,
            ¬(a.id ≠ act.id ∧ a.licenseId = lic.id ∧ a.instance_id = i ∧
              a.is_active = false) := by
          intro a ha hcontra
          apply List.any_eq_false.mp hany0 a ha
          simp only [Bool.and_eq_true, bne_iff_ne, ne_eq, beq_iff_eq,
            Bool.not_eq_true']
          exact ⟨⟨⟨hcontra.1, hcontra.2.1⟩, hcontra.2.2.1⟩, hcontra.2.2.2⟩
        have heq : (deactivate s lk i sl now).1 =
            ⟨s.products, s.license_keys, s.licenses,
              s.activations.map (fun a =>
                if a.id = act.id then
                  ⟨a.id, a.licenseId, a.instance_id, a.activated_at, some now, false⟩
                else a),
              s.nextId⟩ := by
          simp [deactivate, hf, hded, hany]
        rw [heq]
        have hidpt : ∀ a ∈ s.activations,
            (if a.id = act.id then
              (⟨a.id, a.licenseId, a.instance_id, a.activated_at, some now, false⟩ :
                ActivationRec)
            else a).id = a.id := by
          intro a ha
          by_cases hc : a.id = act.id
          · simp [hc]
          · simp [hc]
        refine ⟨h.licFresh, ?_, ?_, h.licNodup, ?_, ?_, ?_⟩
        · intro a ha
          rcases List.mem_map.mp ha with ⟨a0, ha0, heq0⟩
          have := hidpt a0 ha0
          rw [heq0] at this
          rw [this]
          exact h.actFresh a0 ha0
        · intro a ha
          rcases List.mem_map.mp ha with ⟨a0, ha0, heq0⟩
          by_cases hc : a0.id = act.id
          · rw [if_pos hc] at heq0
            subst heq0
            exact h.actRef a0 ha0
          · rw [if_neg hc] at heq0
            subst heq0
            exact h.actRef a0 ha0
        · have : (s.activations.map (fun a =>
              if a.id = act.id then
                (⟨a.id, a.licenseId, a.instance_id, a.activated_at, some now, false⟩ :
                  ActivationRec)
              else a)).map (fun a => a.id) =
                s.activations.map (fun a => a.id) := by
            rw [List.map_map]
            exact List.map_congr_left hidpt
          rw [this]
          exact h.actNodup
        · intro lic2 hmem2 m hm hmpos
          have hle : active_count
              (⟨s.products, s.license_keys, s.licenses,
                s.activations.map (fun a =>
                  if a.id = act.id then
                    ⟨a.id, a.licenseId, a.instance_id, a.activated_at, some now, false⟩
                  else a),
                s.nextId⟩ : Store) lic2.id ≤ active_count s lic2.id := by
            simp only [active_count, List.countP_map]
            refine List.countP_mono_left ?_
            intro a ha hpa
            by_cases hc : a.id = act.id
            · simp [Function.comp, hc] at hpa
            · simpa [Function.comp, hc] using hpa
          have := h.seats lic2 hmem2 m hm hmpos
          have hcast : (active_count
              (⟨s.products, s.license_keys, s.licenses,
                s.activations.map (fun a =>
                  if a.id = act.id then
                    ⟨a.id, a.licenseId, a.instance_id, a.activated_at, some now, false⟩
                  else a),
                s.nextId⟩ : Store) lic2.id : Int) ≤
              (active_count s lic2.id : Int) := by
            exact_mod_cast hle
          omega
        · rw [List.pairwise_map]
          have hne : s.activations.Pairwise (fun a b => a.id ≠ b.id) :=
            List.pairwise_map.mp h.actNodup
          refine List.Pairwise.imp_of_mem ?_ (h.triple.and hne)
          intro a b ha hb hab
          rcases hab with ⟨hR, hneq⟩
          by_cases hca : a.id = act.id
          · by_cases hcb : b.id = act.id
            · exact absurd (hca.trans hcb.symm) hneq
            · have haeq : a = act := List.inj_on_of_nodup_map h.actNodup ha hactmem hca
              rw [if_pos hca, if_neg hcb]
              intro hcontra
              refine hanyf b hb ⟨hcb, ?_, ?_, hcontra.2.2.symm⟩
              · rw [← hcontra.1, haeq]
                exact hactp.1.1
              · rw [← hcontra.2.1, haeq]
                exact hactp.1.2
          · by_cases hcb : b.id = act.id
            · have hbeq : b = act := List.inj_on_of_nodup_map h.actNodup hb hactmem hcb
              rw [if_neg hca, if_pos hcb]
              intro hcontra
              refine hanyf a ha ⟨hca, ?_, ?_, hcontra.2.2⟩
              · rw [hcontra.1, hbeq]
                exact hactp.1.1
              · rw [hcontra.2.1, hbeq]
                exact hactp.1.2
            · rw [if_neg hca, if_neg hcb]
              exact hR

theorem add_license_inv (s : Store) (k pid : Nat) (d ms : Option Int)
    (h : StoreInv s) :
    StoreInv ⟨s.products, s.license_keys,
      s.licenses ++ [⟨s.nextId, k, pid, LicenseStatus.valid, d, ms⟩],
      s.activations, s.nextId + 1⟩ := by
  refine ⟨?_, ?_, ?_, ?_, h.actNodup, ?_, h.triple⟩
  · intro l hl
    rcases List.mem_append.mp hl with hl | hl
    · exact Nat.lt_succ_of_lt (h.licFresh l hl)
    · rcases List.mem_singleton.mp hl with rfl
      exact Nat.lt_succ_self _
  · intro a ha
    exact Nat.lt_succ_of_lt (h.actFresh a ha)
  · intro a ha
    exact Nat.lt_succ_of_lt (h.actRef a ha)
  · rw [List.map_append, List.nodup_append]
    refine ⟨h.licNodup, List.nodup_singleton _, ?_⟩
    intro x hx hx2
    rcases List.mem_map.mp hx with ⟨l, hl, rfl⟩
    have hlt := h.licFresh l hl
    have hxeq : l.id = s.nextId := by simpa using hx2
    omega
  · intro lic2 hmem2 m hm hmpos
    rcases List.mem_append.mp hmem2 with hmem2 | hmem2
    · exact h.seats lic2 hmem2 m hm hmpos
    · rcases List.mem_singleton.mp hmem2 with rfl
      have hzero : active_count
          (⟨s.products, s.license_keys,
            s.licenses ++ [⟨s.nextId, k, pid, LicenseStatus.valid, d, ms⟩],
            s.activations, s.nextId + 1⟩ : Store) s.nextId = 0 := by
        refine List.countP_eq_zero.mpr ?_
        intro a ha
        have := h.actRef a ha
        simp only [Bool.and_eq_true, beq_iff_eq, not_and]
        intro hcontra
        omega
      rw [hzero]
      omega

theorem provisionLoop_inv (b k : Nat) (reqs : List ProductRequest) :
    ∀ (s : Store) (acc : List Nat), StoreInv s →
      StoreInv (provisionLoop b k s reqs acc).1 := by
  induction reqs with
  | nil =>
    intro s acc h
    simpa [provisionLoop] using h
  | cons req rest ih =>
    intro s acc h
    by_cases hslug : req.slug = ""
    · have heq : (provisionLoop b k s (req :: rest) acc).1 = s := by
        simp [provisionLoop, hslug]
      rw [heq]
      exact h
    · cases hp : s.products.find? (fun p =>
          p.brandId == b && p.slug == req.slug && p.is_active) with
      | none =>
        have heq : (provisionLoop b k s (req :: rest) acc).1 = s := by
          simp [provisionLoop, hslug, hp]
        rw [heq]
        exact h
      | some product =>
        cases hl : s.licenses.find? (fun l =>
            l.license_key == k && l.productId == product.id) with
        | some ex =>
          have heq : (provisionLoop b k s (req :: rest) acc).1 =
              (provisionLoop b k s rest (acc ++ [ex.id])).1 := by
            simp [provisionLoop, hslug, hp, hl]
          rw [heq]
          exact ih s _ h
        | none =>
          cases hparse : parseExpiration req.expiration_date with
          | bad =>
            have heq : (provisionLoop b k s (req :: rest) acc).1 = s := by
              simp [provisionLoop, hslug, hp, hl, hparse]
            rw [heq]
            exact h
          | okDate d =>
            have heq : (provisionLoop b k s (req :: rest) acc).1 =
                (provisionLoop b k
                  ⟨s.products, s.license_keys,
                    s.licenses ++ [⟨s.nextId, k, product.id,
                      LicenseStatus.valid, d, req.max_seats⟩],
                    s.activations, s.nextId + 1⟩
                  rest (acc ++ [s.nextId])).1 := by
              simp [provisionLoop, hslug, hp, hl, hparse]
            rw [heq]
            exact ih _ _ (add_license_inv s k product.id d req.max_seats h)

theorem provision_inv (s : Store) (b : Nat) (email : String)
    (reqs : List ProductRequest) (h : StoreInv s) :
    StoreInv (provision s b email reqs).1 := by
  have hkeyadd : StoreInv ⟨s.products,
      s.license_keys ++ [⟨s.nextId, fresh_key s.nextId, b, email⟩],
      s.licenses, s.activations, s.nextId + 1⟩ := by
    refine ⟨?_, ?_, ?_, h.licNodup, h.actNodup, h.seats, h.triple⟩
    · intro l hl
      exact Nat.lt_succ_of_lt (h.licFresh l hl)
    · intro a ha
      exact Nat.lt_succ_of_lt (h.actFresh a ha)
    · intro a ha
      exact Nat.lt_succ_of_lt (h.actRef a ha)
  cases hk : s.license_keys.find? (fun kk =>
      kk.brandId == b && kk.customer_email == email) with
  | some k =>
    have hrun : (provision s b email reqs).1 = (provisionLoop b k.id s reqs []).1 := by
      simp only [provision, hk]
      cases hloop : provisionLoop b k.id s reqs [] with
      | mk s2 out =>
        cases out with
        | done ids => simp
        | fail err => simp
    rw [hrun]
    exact provisionLoop_inv b k.id reqs s [] h
  | none =>
    have hrun : (provision s b email reqs).1 =
        (provisionLoop b s.nextId
          ⟨s.products, s.license_keys ++ [⟨s.nextId, fresh_key s.nextId, b, email⟩],
            s.licenses, s.activations, s.nextId + 1⟩ reqs []).1 := by
      simp only [provision, hk]
      cases hloop : provisionLoop b s.nextId
          ⟨s.products, s.license_keys ++ [⟨s.nextId, fresh_key s.nextId, b, email⟩],
            s.licenses, s.activations, s.nextId + 1⟩ reqs [] with
      | mk s2 out =>
        cases out with
        | done ids => simp
        | fail err => simp
    rw [hrun]
    exact provisionLoop_inv b s.nextId reqs _ [] hkeyadd

theorem stepOp_inv (s : Store) (op : Op) (h : StoreInv s) :
    StoreInv (stepOp s op) := by
  cases op with
  | provisionOp b e reqs => exact provision_inv s b e reqs h
  | activateOp lk i sl now => exact activate_inv s lk i sl now h
  | deactivateOp lk i sl now => exact deactivate_inv s lk i sl now h
  | lifecycleOp b lid a e => exact update_lifecycle_inv s b lid a e h

theorem initStore_inv (products : List ProductRec) :
    StoreInv (initStore products) := by
  refine ⟨?_, ?_, ?_, ?_, ?_, ?_, ?_⟩ <;> simp [initStore]

theorem runOps_inv (ops : List Op) :
    ∀ s : Store, StoreInv s → StoreInv (runOps s ops) := by
  induction ops with
  | nil =>
    intro s h
    simpa [runOps] using h
  | cons op rest ih =>
    intro s h
    have : runOps s (op :: rest) = runOps (stepOp s op) rest := by
      simp [runOps]
    rw [this]
    exact ih _ (stepOp_inv s op h)

/-! ## C2 (amended) -/

/-- C2 (amended): over every store reachable from an initial catalogue
of products by any sequence of provision, activate, deactivate and
lifecycle operations, the number of active activations of a license
whose `max_seats` is set to a positive value never exceeds that value.
(The claim's "set (non-null)" must be narrowed to "set and positive":
`max_seats = 0` is treated as unset by the seat check, see the
counterexample.) -/
theorem seat_limit_invariant (products : List ProductRec) (ops : List Op)
    (lic : LicenseRec) (m : Int)
    (h1 : lic ∈ (runOps (initStore products) ops).licenses)
    (h2 : lic.max_seats = some m) (h3 : 0 < m) :
    (active_count (runOps (initStore products) ops) lic.id : Int) ≤ m :=
  (runOps_inv ops (initStore products) (initStore_inv products)).seats
    lic h1 m h2 h3

/-- C2 witness: in the concrete run of scenario B the license with
`max_seats = 5` has at most 5 active activations. -/
theorem seat_limit_invariant_witness :
    ((⟨1, 0, 100, LicenseStatus.valid, none, some 5⟩ : LicenseRec) ∈
        (runOps (initStore prodsB) opsB).licenses ∧
      (⟨1, 0, 100, LicenseStatus.valid, none, some 5⟩ : LicenseRec).max_seats =
        some 5 ∧ (0 : Int) < 5) ∧
    (active_count (runOps (initStore prodsB) opsB) 1 : Int) ≤ 5 := by
  refine ⟨⟨by decide, by decide, by decide⟩, ?_⟩
  exact seat_limit_invariant prodsB opsB
    ⟨1, 0, 100, LicenseStatus.valid, none, some 5⟩ 5
    (by decide) (by decide) (by decide)

/-! ## C10 -/

theorem countP_le_one_of_pairwise {α : Type} {R : α → α → Prop} {p : α → Bool}
    {l : List α} (hR : l.Pairwise R)
    (hp : ∀ a b, p a = true → p b = true → ¬ R a b) :
    l.countP p ≤ 1 := by
  induction l with
  | nil => simp
  | cons a t ih =>
    rcases List.pairwise_cons.mp hR with ⟨hat, ht⟩
    by_cases hpa : p a = true
    · have hzero : t.countP p = 0 := by
        refine List.countP_eq_zero.mpr ?_
        intro b hb hpb
        exact hp a b hpa hpb (hat b hb)
      simp [List.countP_cons, hpa, hzero]
    · have := ih ht
      rw [List.countP_cons, if_neg hpa]
      omega

/-- C10: over every reachable store the `unique_together ["license",
"instance_id", "is_active"]` constraint holds, so at most one
deactivated (`is_active = false`) row exists per `(license,
instance_id)`; consequently, once a deactivated row is retained for a
pair, deactivating a newly re-activated activation of the same pair
cannot store a second audit row — the call fails with the internal error
and leaves the store unchanged. -/
theorem activation_triple_unique (products : List ProductRec) (ops : List Op)
    (lkId : Nat) (instId slug : String) (now : Int)
    (lic : LicenseRec) (act a : ActivationRec)
    (h1 : findLicense (runOps (initStore products) ops) lkId slug = some lic)
    (h2 : (runOps (initStore products) ops).activations.find? (fun x =>
        x.licenseId == lic.id && x.instance_id == instId && x.is_active) = some act)
    (h3 : a ∈ (runOps (initStore products) ops).activations)
    (h4 : a.licenseId = lic.id) (h5 : a.instance_id = instId)
    (h6 : a.is_active = false) :
    (runOps (initStore products) ops).activations.countP (fun x =>
        x.licenseId == lic.id && x.instance_id == instId && !x.is_active) ≤ 1 ∧
    deactivate (runOps (initStore products) ops) lkId instId slug now =
      (runOps (initStore products) ops, DeactivateResult.internalError) := by
  have hinv := runOps_inv ops (initStore products) (initStore_inv products)
  have hactmem : act ∈ (runOps (initStore products) ops).activations :=
    List.mem_of_find?_eq_some h2
  have hactp := List.find?_some h2
  simp only [Bool.and_eq_true, beq_iff_eq] at hactp
  constructor
  · refine countP_le_one_of_pairwise hinv.triple ?_
    intro x y hx hy
    simp only [Bool.and_eq_true, beq_iff_eq, Bool.not_eq_true'] at hx hy
    intro hRxy
    exact hRxy ⟨hx.1.1.trans hy.1.1.symm, hx.1.2.trans hy.1.2.symm,
      hx.2.trans hy.2.symm⟩
  · have haid : a.id ≠ act.id := by
      intro hc
      have : a = act := List.inj_on_of_nodup_map hinv.actNodup h3 hactmem hc
      rw [this] at h6
      rw [hactp.2] at h6
      exact Bool.noConfusion h6
    have hany : (runOps (initStore products) ops).activations.any (fun x =>
        x.id != act.id && x.licenseId == lic.id &&
          x.instance_id == instId && !x.is_active) = true := by
      refine List.any_eq_true.mpr ⟨a, h3, ?_⟩
      simp only [Bool.and_eq_true, bne_iff_ne, ne_eq, beq_iff_eq,
        Bool.not_eq_true']
      exact ⟨⟨⟨haid, h4⟩, h5⟩, h6⟩
    simp [deactivate, h1, h2, hany]

/-- C10 witness: in the concrete run of scenario B (activate,
deactivate, re-activate instance `i`) the store retains exactly one
deactivated row for the pair, and deactivating again fails with the
internal error leaving the store unchanged. -/
theorem activation_triple_unique_witness :
    (findLicense (runOps (initStore prodsB) opsB) 0 "p" =
        some ⟨1, 0, 100, LicenseStatus.valid, none, some 5⟩ ∧
      (runOps (initStore prodsB) opsB).activations.find? (fun x =>
        x.licenseId == 1 && x.instance_id == "i" && x.is_active) =
          some ⟨3, 1, "i", 3, none, true⟩ ∧
      (⟨2, 1, "i", 1, some 2, false⟩ : ActivationRec) ∈
        (runOps (initStore prodsB) opsB).activations ∧
      (⟨2, 1, "i", 1, some 2, false⟩ : ActivationRec).licenseId = 1 ∧
      (⟨2, 1, "i", 1, some 2, false⟩ : ActivationRec).instance_id = "i" ∧
      (⟨2, 1, "i", 1, some 2, false⟩ : ActivationRec).is_active = false) ∧
    ((runOps (initStore prodsB) opsB).activations.countP (fun x =>
        x.licenseId == 1 && x.instance_id == "i" && !x.is_active) ≤ 1 ∧
      deactivate (runOps (initStore prodsB) opsB) 0 "i" "p" 7 =
        (runOps (initStore prodsB) opsB, DeactivateResult.internalError)) := by
  refine ⟨⟨by decide, by decide, by decide, by decide, by decide, by decide⟩, ?_⟩
  exact activation_triple_unique prodsB opsB 0 "i" "p" 7
    ⟨1, 0, 100, LicenseStatus.valid, none, some 5⟩
    ⟨3, 1, "i", 3, none, true⟩ ⟨2, 1, "i", 1, some 2, false⟩
    (by decide) (by decide) (by decide) (by decide) (by decide) (by decide)
